import Mathlib

/-!
Verification development for the ripgrepjs native module, a parallel
directory search that binds the grep crate to a JavaScript callback.
The definitions below are a shallow embedding of src/lib.rs: the
callback sink, the channel-based delivery to the single consumer
thread, the rayon directory traversal, and the option unmarshalling of
the entry point. External collaborators (the grep searcher and regex
builder, the standard UTF-8 check, neon property access) are modelled
at their interface as they are used by this code.
-/

/-- Decidable equality of Rust-style results, used to evaluate the
embedded fallible operations on concrete inputs. -/
instance {ε α : Type} [DecidableEq ε] [DecidableEq α] : DecidableEq (Except ε α) :=
  fun a b =>
    match a, b with
    | Except.ok x, Except.ok y =>
        if h : x = y then isTrue (by rw [h])
        else isFalse (fun hc => by cases hc; exact h rfl)
    | Except.error x, Except.error y =>
        if h : x = y then isTrue (by rw [h])
        else isFalse (fun hc => by cases hc; exact h rfl)
    | Except.ok _, Except.error _ => isFalse (fun hc => by cases hc)
    | Except.error _, Except.ok _ => isFalse (fun hc => by cases hc)

namespace Ripgrepjs

/-- Raw bytes of one line handed to the sink by the searcher. -/
abbrev ByteLine := List Nat

/-- Tests whether a byte is a UTF-8 continuation byte, 0x80 to 0xBF. -/
def isUtf8Cont (b : Nat) : Bool := 0x80 ≤ b && b ≤ 0xBF

/-- Validity of a byte sequence as UTF-8, the check performed by the
standard library conversion the sink applies to each raw line.  It
accepts exactly well-formed UTF-8: no overlong forms, no surrogates,
and nothing above U+10FFFF. -/
def utf8Valid : List Nat → Bool
  | [] => true
  | b :: rest =>
    if b ≤ 0x7F then utf8Valid rest
    else if 0xC2 ≤ b && b ≤ 0xDF then
      match rest with
      | c1 :: r => isUtf8Cont c1 && utf8Valid r
      | [] => false
    else if b = 0xE0 then
      match rest with
      | c1 :: c2 :: r => (0xA0 ≤ c1 && c1 ≤ 0xBF) && isUtf8Cont c2 && utf8Valid r
      | _ => false
    else if b = 0xED then
      match rest with
      | c1 :: c2 :: r => (0x80 ≤ c1 && c1 ≤ 0x9F) && isUtf8Cont c2 && utf8Valid r
      | _ => false
    else if 0xE1 ≤ b && b ≤ 0xEF then
      match rest with
      | c1 :: c2 :: r => isUtf8Cont c1 && isUtf8Cont c2 && utf8Valid r
      | _ => false
    else if b = 0xF0 then
      match rest with
      | c1 :: c2 :: c3 :: r =>
          (0x90 ≤ c1 && c1 ≤ 0xBF) && isUtf8Cont c2 && isUtf8Cont c3 && utf8Valid r
      | _ => false
    else if 0xF1 ≤ b && b ≤ 0xF3 then
      match rest with
      | c1 :: c2 :: c3 :: r =>
          isUtf8Cont c1 && isUtf8Cont c2 && isUtf8Cont c3 && utf8Valid r
      | _ => false
    else if b = 0xF4 then
      match rest with
      | c1 :: c2 :: c3 :: r =>
          (0x80 ≤ c1 && c1 ≤ 0x8F) && isUtf8Cont c2 && isUtf8Cont c3 && utf8Valid r
      | _ => false
    else false

/-- Per-line decode performed on the worker thread: the sink maps every
raw line through the UTF-8 conversion, keeping a per-line success or
failure.  A successful decode keeps the bytes as the text payload. -/
def decodeLine (l : ByteLine) : Option ByteLine :=
  if utf8Valid l then some l else none

/-- Raw match event passed by the external searcher to the sink: the raw
byte lines spanned by the match and the optional line number. -/
structure SinkMatchEvent where
  lines : List ByteLine
  lineNumber : Option Nat
deriving DecidableEq

/-- Message sent over the delivery channel by the sink for one match
event: the line number and the per-line decode results, both computed
on the worker thread before sending. -/
structure ChannelMsg where
  lineNumber : Option Nat
  decoded : List (Option ByteLine)
deriving DecidableEq

/-- Embedding of JSCallbackSink::matched: read the line number, map each
raw line through the UTF-8 decode collecting the per-line results into a
vector, send one closure over the channel carrying them, and return
true so the search of the file continues.  The first component is the
message sent, the second the boolean returned to the searcher. -/
def JSCallbackSink.matched (ev : SinkMatchEvent) : ChannelMsg × Bool :=
  (⟨ev.lineNumber, ev.lines.map decodeLine⟩, true)

/-- Decoded record as delivered to the JavaScript callback: the
matchedLines array and the optional lineNumber property.  An entry of
none stands for a decode-failure marker in that position. -/
structure MatchRecord where
  matchedLines : List (Option ByteLine)
  lineNumber : Option Nat
deriving DecidableEq

/-- Observable outcome of the consumer thread executing one queued
closure: the callback is invoked with one record, or the closure throws
a conversion error before invoking it.  The doneSignal constructor
stands for a delivery of a completion sentinel. -/
inductive Delivered where
  | record (r : MatchRecord)
  | errorThrown
  | doneSignal
deriving DecidableEq

/-- Loop of the queued closure over the per-line decode results: each
successful line is appended to the JavaScript array in order, and the
first failed line makes the closure throw, abandoning the object. -/
def buildJsLines : List (Option ByteLine) → Option (List ByteLine)
  | [] => some []
  | some l :: rest => (buildJsLines rest).map (fun ls => l :: ls)
  | none :: _ => none

/-- Consumer-thread execution of one channel message: build the match
object line by line; at the first decode failure the closure throws and
the callback is not invoked; otherwise the callback is invoked exactly
once with the completed record. -/
def consumerStep (m : ChannelMsg) : Delivered :=
  match buildJsLines m.decoded with
  | some ls => Delivered.record ⟨ls.map some, m.lineNumber⟩
  | none => Delivered.errorThrown

/-- Consumer thread draining the queue: the queued closures execute one
at a time, in arrival order, on the one JavaScript thread. -/
def consumerProcess (q : List ChannelMsg) : List Delivered :=
  q.map consumerStep

/-- Options for building a searcher, mirroring the SearcherOptions
struct field for field. -/
structure SearcherOptions where
  line_terminator : Option Nat
  invert_match : Bool
  include_line_numbers : Bool
  multiline_search : Bool
  after_context : Nat
  before_context : Nat
  passthru : Bool
  heap_limit : Option Nat
deriving DecidableEq

/-- Configured state of the external grep searcher produced by the
builder in SearcherOptions::to_searcher.  The builder starts from the
crate defaults; the default line terminator is the newline byte 10. -/
structure Searcher where
  line_term : Nat
  invert_match : Bool
  line_number : Bool
  multi_line : Bool
  after_context : Nat
  before_context : Nat
  passthru : Bool
  heap_limit : Option Nat
deriving DecidableEq

/-- Embedding of SearcherOptions::to_searcher: set the line terminator
only when the option is present (keeping the builder default 10
otherwise), then copy each remaining field onto the builder. -/
def SearcherOptions.to_searcher (o : SearcherOptions) : Searcher :=
  { line_term := o.line_terminator.getD 10
  , invert_match := o.invert_match
  , line_number := o.include_line_numbers
  , multi_line := o.multiline_search
  , after_context := o.after_context
  , before_context := o.before_context
  , passthru := o.passthru
  , heap_limit := o.heap_limit }

/-- Options for building a matcher, mirroring the MatcherOptions struct
field for field. -/
structure MatcherOptions where
  case_insensitive : Bool
  smart_case : Bool
  multi_line : Bool
  dot_matches_new_line : Bool
  greedy_swap : Bool
  ignore_whitespace : Bool
  unicode : Bool
  octal : Bool
  line_terminator : Option Nat
  crlf : Bool
  word_boundaries_only : Bool
  pattern : String
deriving DecidableEq

/-- Compiled matcher handle returned by the external regex builder. -/
structure Matcher where
  config : MatcherOptions
deriving DecidableEq

/-- Embedding of MatcherOptions::to_matcher: configure the external
builder with every flag and ask it to compile the pattern.  The
external engine's acceptance of a pattern text is abstracted as the
predicate valid; compilation fails exactly on a rejected pattern, and
this is the only place a pattern error can arise. -/
def MatcherOptions.to_matcher (valid : String → Bool) (o : MatcherOptions) :
    Except String Matcher :=
  if valid o.pattern then Except.ok ⟨o⟩ else Except.error "regex parse error"

/-- Behavior of the external searcher on one regular file: the match
events it feeds to the sink, and whether search_path then ends in an
error (an I/O failure or a heap-limit abort) after those events. -/
structure FileScan where
  events : List SinkMatchEvent
  ioError : Bool
deriving DecidableEq

mutual
/-- One entry yielded while walking a directory.  A file is a regular
file together with the external searcher's behavior on it; a dir is a
subdirectory with the entries its read_dir yields; other is an entry
whose file type is neither file nor directory (a symlink or a device);
badEntry is a position where the read_dir iterator yields an error
instead of an entry; badType is an entry whose file_type query fails;
badDir is a directory on which the recursive read_dir call fails. -/
inductive FSEntry where
  | file (name : String) (scan : FileScan)
  | dir (name : String) (entries : FSList)
  | other (name : String)
  | badEntry (name : String)
  | badType (name : String)
  | badDir (name : String)

/-- List of directory entries in the order the iterator yields them. -/
inductive FSList where
  | nil
  | cons (e : FSEntry) (rest : FSList)
end

/-- Way a traversal call returns: normally, with a propagated I/O error
(the question mark on file_type or on the recursive read_dir), with a
regex compilation error, or by panicking (the unwrap on a failed file
search). -/
inductive RunResult where
  | ok
  | errRead
  | errRegex
  | panicked
deriving DecidableEq

/-- Observable output of one traversal: the messages sent over the
channel in order, the full paths passed to search_path in order, and
how the call returned. -/
structure ScanOut where
  msgs : List ChannelMsg
  scanned : List (List String)
  result : RunResult
deriving DecidableEq

/-- Model of the external Searcher::search_path on one file: it drives
JSCallbackSink::matched once per event, each send going to the channel
in order, and then reports success or failure. -/
def searchPath (fs : FileScan) : List ChannelMsg × Bool :=
  (fs.events.map (fun ev => (JSCallbackSink.matched ev).1), !fs.ioError)

mutual
/-- Body of the try_for_each closure of search_directory_inner on one
directory entry: an errored entry from the iterator is skipped by the
if-let; a failed file-type query propagates its error; a regular file
is searched, the unwrap turning a failed search into a panic; a
directory recurses on the same pool; any other entry is ignored. -/
def search_entry (p : List String) : FSEntry → ScanOut
  | FSEntry.file n sc =>
      let out := searchPath sc
      ⟨out.1, [p ++ [n]], if out.2 then RunResult.ok else RunResult.panicked⟩
  | FSEntry.dir n es => search_directory_inner (p ++ [n]) es
  | FSEntry.other _ => ⟨[], [], RunResult.ok⟩
  | FSEntry.badEntry _ => ⟨[], [], RunResult.ok⟩
  | FSEntry.badType _ => ⟨[], [], RunResult.errRead⟩
  | FSEntry.badDir _ => ⟨[], [], RunResult.errRead⟩

/-- Embedding of search_directory_inner on the entry list returned by
read_dir, in the sequential schedule of the parallel try_for_each:
entries are processed in order and processing stops at the first
propagated error or panic, keeping the messages already sent and the
scans already performed. -/
def search_directory_inner (p : List String) : FSList → ScanOut
  | FSList.nil => ⟨[], [], RunResult.ok⟩
  | FSList.cons e rest =>
      let o1 := search_entry p e
      match o1.result with
      | RunResult.ok =>
          let o2 := search_directory_inner p rest
          ⟨o1.msgs ++ o2.msgs, o1.scanned ++ o2.scanned, o2.result⟩
      | r => ⟨o1.msgs, o1.scanned, r⟩
end

/-- Embedding of search_directory_with_rayon: compile the matcher first,
the question mark propagating a pattern error before any traversal is
started, then run search_directory_inner on the root directory. -/
def search_directory_with_rayon (valid : String → Bool)
    (so : SearcherOptions) (mo : MatcherOptions) (root : FSList) : ScanOut :=
  match MatcherOptions.to_matcher valid mo with
  | Except.error _ => ⟨[], [], RunResult.errRegex⟩
  | Except.ok _ =>
      let _ := so.to_searcher
      search_directory_inner [] root

mutual
/-- Specification-side enumeration of the regular files reachable under
one entry, as full paths in traversal order. -/
def entryFiles (p : List String) : FSEntry → List (List String)
  | FSEntry.file n _ => [p ++ [n]]
  | FSEntry.dir n es => listFiles (p ++ [n]) es
  | FSEntry.other _ => []
  | FSEntry.badEntry _ => []
  | FSEntry.badType _ => []
  | FSEntry.badDir _ => []

/-- Specification-side enumeration of the regular files reachable under
an entry list, as full paths in traversal order. -/
def listFiles (p : List String) : FSList → List (List String)
  | FSList.nil => []
  | FSList.cons e rest => entryFiles p e ++ listFiles p rest
end

mutual
/-- Absence of any filesystem error below one entry, including success
of every file scan. -/
def entryErrorFree : FSEntry → Bool
  | FSEntry.file _ sc => !sc.ioError
  | FSEntry.dir _ es => listErrorFree es
  | FSEntry.other _ => true
  | FSEntry.badEntry _ => false
  | FSEntry.badType _ => false
  | FSEntry.badDir _ => false

/-- Absence of any filesystem error in an entry list. -/
def listErrorFree : FSList → Bool
  | FSList.nil => true
  | FSList.cons e rest => entryErrorFree e && listErrorFree rest
end

/-- Numeric value of a JavaScript number as seen through the binding:
not a number, one of the two infinities, or a finite value.  Every
finite double is an exact rational; it is modelled here as a numerator
n and a denominator d standing for the value n divided by d + 1. -/
inductive JSNum where
  | nan
  | posInf
  | negInf
  | num (n : Int) (d : Nat)
deriving DecidableEq

/-- Exact real value of a finite JavaScript number, as a rational. -/
def JSNum.val (n : Int) (d : Nat) : ℚ := (n : ℚ) / ((d : ℚ) + 1)

/-- JavaScript value stored at a property of the options object. -/
inductive JSValue where
  | num (n : JSNum)
  | bool (b : Bool)
  | str (s : String)
  | undef
  | otherVal
deriving DecidableEq

/-- Options object seen as a total property map; reading an absent
property yields undefined, as obj.get does. -/
def JSObject := String → JSValue

/-- Largest value of the 64-bit usize targeted by the saturating cast. -/
def USIZE_MAX : Nat := 2 ^ 64 - 1

/-- Semantics of the Rust float-to-usize as cast used on every numeric
option: NaN goes to zero, the cast truncates toward zero, and
out-of-range values saturate at the two bounds. -/
def f64AsUsize : JSNum → Nat
  | JSNum.nan => 0
  | JSNum.posInf => USIZE_MAX
  | JSNum.negInf => 0
  | JSNum.num n d =>
      if n < 0 then 0 else min (Int.toNat (n / (d + 1 : Nat))) USIZE_MAX

/-- Embedding of get_int_from_js_object: read the property, throw
unless it downcasts to a number, and convert the float value with the
as cast. -/
def get_int_from_js_object (obj : JSObject) (key : String) : Except Unit Nat :=
  match obj key with
  | JSValue.num n => Except.ok (f64AsUsize n)
  | _ => Except.error ()

/-- Embedding of get_possible_int_from_js_object: like the throwing
variant, but a failed downcast yields no value instead of throwing. -/
def get_possible_int_from_js_object (obj : JSObject) (key : String) : Option Nat :=
  match obj key with
  | JSValue.num n => some (f64AsUsize n)
  | _ => none

/-- Embedding of get_bool_from_js_object: read the property and throw
unless it downcasts to a boolean. -/
def get_bool_from_js_object (obj : JSObject) (key : String) : Except Unit Bool :=
  match obj key with
  | JSValue.bool b => Except.ok b
  | _ => Except.error ()

/-- Embedding of get_string_from_js_object: read the property and throw
unless it downcasts to a string. -/
def get_string_from_js_object (obj : JSObject) (key : String) : Except Unit String :=
  match obj key with
  | JSValue.str s => Except.ok s
  | _ => Except.error ()

/-- Embedding of the option-unmarshalling prefix of
multithreaded_search_directory: build the SearcherOptions field by
field in source order, the line terminator hardcoded to none, then read
the pattern and build the MatcherOptions, whose multi_line and
line_terminator are copied from the searcher options just built.  Any
failing read throws out of the entry point before any scan. -/
def extractOptions (obj : JSObject) :
    Except Unit (SearcherOptions × MatcherOptions) := do
  let after ← get_int_from_js_object obj "afterContext"
  let before ← get_int_from_js_object obj "beforeContext"
  let ml ← get_bool_from_js_object obj "multilineSearch"
  let inv ← get_bool_from_js_object obj "invertMatch"
  let iln ← get_bool_from_js_object obj "includeLineNumbers"
  let pt ← get_bool_from_js_object obj "passthru"
  let hl := get_possible_int_from_js_object obj "heapLimit"
  let so : SearcherOptions := ⟨none, inv, iln, ml, after, before, pt, hl⟩
  let pat ← get_string_from_js_object obj "pattern"
  let ci ← get_bool_from_js_object obj "caseInsensitive"
  let sca ← get_bool_from_js_object obj "smartCase"
  let dm ← get_bool_from_js_object obj "dotMatchesNewline"
  let gs ← get_bool_from_js_object obj "greedySwap"
  let iw ← get_bool_from_js_object obj "ignoreWhitespace"
  let uni ← get_bool_from_js_object obj "unicode"
  let oct ← get_bool_from_js_object obj "octal"
  let crl ← get_bool_from_js_object obj "crlf"
  let wb ← get_bool_from_js_object obj "wordBoundariesOnly"
  let mo : MatcherOptions :=
    ⟨ci, sca, so.multiline_search, dm, gs, iw, uni, oct,
      so.line_terminator, crl, wb, pat⟩
  return (so, mo)

/-- Whether a run result lets the entry point return undefined rather
than rethrow the Rust error to JavaScript. -/
def RunResult.isOk : RunResult → Bool
  | RunResult.ok => true
  | _ => false

/-- Embedding of multithreaded_search_directory: unmarshal the options,
throwing on a malformed bundle before any traversal, run the rayon
search, and rethrow any Rust error; the boolean records whether the
call threw after the search. -/
def multithreaded_search_directory (valid : String → Bool) (obj : JSObject)
    (root : FSList) : Except Unit (ScanOut × Bool) := do
  let (so, mo) ← extractOptions obj
  let out := search_directory_with_rayon valid so mo root
  return (out, !out.result.isOk)

/-- Arrival order at the delivery channel: the queue is formed by
repeatedly taking the next pending message of some producer, so each
producer's messages arrive in their production order while different
producers interleave arbitrarily. -/
inductive IsArrival : List (List ChannelMsg) → List ChannelMsg → Prop
  | empty (ws : List (List ChannelMsg)) (h : ∀ w ∈ ws, w = []) : IsArrival ws []
  | step (ws : List (List ChannelMsg)) (i : Nat) (m : ChannelMsg)
      (rest : List ChannelMsg) (q : List ChannelMsg)
      (hi : ws[i]? = some (m :: rest))
      (htail : IsArrival (ws.set i rest) q) : IsArrival ws (m :: q)

/-- Concrete options object carrying every property the entry point
reads, plus a line terminator byte the caller asks for. -/
def sampleObj : JSObject := fun k =>
  if k = "afterContext" then JSValue.num (JSNum.num 2 0)
  else if k = "beforeContext" then JSValue.num (JSNum.num 0 0)
  else if k = "multilineSearch" then JSValue.bool true
  else if k = "invertMatch" then JSValue.bool false
  else if k = "includeLineNumbers" then JSValue.bool true
  else if k = "passthru" then JSValue.bool false
  else if k = "heapLimit" then JSValue.num (JSNum.num 1024 0)
  else if k = "pattern" then JSValue.str "foo"
  else if k = "caseInsensitive" then JSValue.bool false
  else if k = "smartCase" then JSValue.bool false
  else if k = "dotMatchesNewline" then JSValue.bool false
  else if k = "greedySwap" then JSValue.bool false
  else if k = "ignoreWhitespace" then JSValue.bool false
  else if k = "unicode" then JSValue.bool true
  else if k = "octal" then JSValue.bool false
  else if k = "crlf" then JSValue.bool false
  else if k = "wordBoundariesOnly" then JSValue.bool false
  else if k = "lineTerminatorByte" then JSValue.num (JSNum.num 0 0)
  else JSValue.undef

/-- Searcher options the entry point builds from sampleObj. -/
def sampleSO : SearcherOptions := ⟨none, false, true, true, 2, 0, false, some 1024⟩

/-- Matcher options the entry point builds from sampleObj. -/
def sampleMO : MatcherOptions :=
  ⟨false, false, true, false, false, false, true, false, none, false, false, "foo"⟩

/-- Single valid-UTF-8 match event used by the concrete trees. -/
def okEvent : SinkMatchEvent := ⟨[[104, 105]], some 1⟩

/-- Two-file directory whose first file fails to scan. -/
def c3Tree : FSList :=
  FSList.cons (FSEntry.file "a" ⟨[], true⟩)
    (FSList.cons (FSEntry.file "b" ⟨[okEvent], false⟩) FSList.nil)

/-- Directory whose first entry is an unlistable subdirectory, followed
by a readable file. -/
def c6Tree : FSList :=
  FSList.cons (FSEntry.badDir "d")
    (FSList.cons (FSEntry.file "b" ⟨[okEvent], false⟩) FSList.nil)

/-- Directory whose first entry has a failing file-type query, followed
by a perfectly healthy file. -/
def c7BadTree : FSList :=
  FSList.cons (FSEntry.badType "x")
    (FSList.cons (FSEntry.file "b" ⟨[], false⟩) FSList.nil)

/-- Error-free tree with a subdirectory, an inert device entry and a
file at the root. -/
def c7Tree : FSList :=
  FSList.cons (FSEntry.dir "sub" (FSList.cons (FSEntry.file "x" ⟨[], false⟩) FSList.nil))
    (FSList.cons (FSEntry.other "dev")
      (FSList.cons (FSEntry.file "y" ⟨[okEvent], false⟩) FSList.nil))

/-- ASCII bytes of the text foo, a valid UTF-8 line. -/
def validFoo : ByteLine := [102, 111, 111]

/-- A lone continuation byte, not valid UTF-8 anywhere. -/
def invalidSeq : ByteLine := [255]

/-- Match event whose first line decodes and whose second line does
not. -/
def mixedEvent : SinkMatchEvent := ⟨[validFoo, invalidSeq], some 1⟩

/-- File scan producing one match on line 1. -/
def fsA : FileScan := ⟨[⟨[[97]], some 1⟩], false⟩

/-- File scan producing one match on line 2. -/
def fsB : FileScan := ⟨[⟨[[98]], some 2⟩], false⟩

/-- Channel message the sink sends for the match of fsA. -/
def msgA : ChannelMsg := (JSCallbackSink.matched ⟨[[97]], some 1⟩).1

/-- Channel message the sink sends for the match of fsB. -/
def msgB : ChannelMsg := (JSCallbackSink.matched ⟨[[98]], some 2⟩).1

/-- Options object holding a negative fractional number. -/
def negNumObj : JSObject := fun k =>
  if k = "afterContext" then JSValue.num (JSNum.num (-7) 1) else JSValue.undef

theorem consumerStep_ne_doneSignal (m : ChannelMsg) :
    consumerStep m ≠ Delivered.doneSignal := by
  unfold consumerStep
  split <;> simp

theorem buildJsLines_map_decodeLine (l : List ByteLine) :
    buildJsLines (l.map decodeLine) = if l.all utf8Valid then some l else none := by
  induction l with
  | nil => simp [buildJsLines]
  | cons b t ih =>
      by_cases hb : utf8Valid b
      · simp [decodeLine, hb, buildJsLines, ih]
      · simp [decodeLine, hb, buildJsLines]

/-- C1 counterexample: searching an empty root directory with a valid
pattern delivers nothing at all to the consumer — in particular no
completion sentinel is the single last delivered value, contradicting a
required done delivery when zero files match. -/
theorem c1_counterexample :
    ¬ (((consumerProcess (search_directory_with_rayon (fun _ => true)
          sampleSO sampleMO FSList.nil).msgs).count Delivered.doneSignal = 1)
        ∧ (consumerProcess (search_directory_with_rayon (fun _ => true)
            sampleSO sampleMO FSList.nil).msgs).getLast? = some Delivered.doneSignal) := by
  decide

/-- C1 amended: the entry point never delivers a completion sentinel at
all: on every invocation, over any tree and options, everything the
consumer observes is a match record or a thrown decode error, and after
the last file's messages the callback is simply not invoked again. -/
theorem c1_no_done_signal (valid : String → Bool) (so : SearcherOptions)
    (mo : MatcherOptions) (root : FSList) :
    Delivered.doneSignal ∉
      consumerProcess (search_directory_with_rayon valid so mo root).msgs := by
  intro hmem
  rw [consumerProcess, List.mem_map] at hmem
  obtain ⟨m, -, hm⟩ := hmem
  exact consumerStep_ne_doneSignal m hm

/-- C2 counterexample: a two-line match event whose second line is not
valid UTF-8 makes the queued closure throw on the consumer thread: the
callback receives nothing — not a record with the sibling line and a
null marker — so the record is dropped. -/
theorem c2_counterexample :
    consumerStep (JSCallbackSink.matched mixedEvent).1 = Delivered.errorThrown
    ∧ Delivered.errorThrown
        ≠ Delivered.record ⟨[some validFoo, none], some 1⟩ := by
  decide

/-- C2 amended: the sink decodes line by line, but the queued closure
abandons the whole event at the first undecodable line: the callback is
invoked with the full record exactly when every line of the event is
valid UTF-8, and otherwise the closure throws and nothing of the event
is delivered. -/
theorem c2_decode_failure_drops_event (ev : SinkMatchEvent) :
    consumerStep (JSCallbackSink.matched ev).1 =
      (if ev.lines.all utf8Valid
        then Delivered.record ⟨ev.lines.map some, ev.lineNumber⟩
        else Delivered.errorThrown) := by
  show consumerStep ⟨ev.lineNumber, ev.lines.map decodeLine⟩ = _
  rw [consumerStep]
  simp only [buildJsLines_map_decodeLine]
  by_cases h : ev.lines.all utf8Valid <;> simp [h]

/-- C3 counterexample: in the directory c3Tree the first file fails to
scan; the unwrap panics, the run does not reach completion, and the
sibling file b is never scanned — the failure is neither caught nor
isolated from the other file tasks. -/
theorem c3_counterexample :
    ¬ ((search_directory_inner [] c3Tree).result = RunResult.ok
       ∧ ["b"] ∈ (search_directory_inner [] c3Tree).scanned) := by
  decide

/-- C3 amended: a per-file scan failure is not caught: the unwrap turns
it into a panic of the worker — the messages already sent and the
attempted scan survive, and in the sequential schedule every sibling
entry after the failing file is abandoned rather than searched. -/
theorem c3_failure_panics (p : List String) (n : String)
    (evs : List SinkMatchEvent) (rest : FSList) :
    search_directory_inner p (FSList.cons (FSEntry.file n ⟨evs, true⟩) rest)
      = ⟨(searchPath ⟨evs, true⟩).1, [p ++ [n]], RunResult.panicked⟩ := rfl

/-- C5: pattern validity is checked at matcher construction, before the
traversal starts: a rejected pattern makes the entry point return the
regex error synchronously, with no message sent, no file scanned, and
so zero callback invocations. -/
theorem c5_invalid_pattern_sync (valid : String → Bool) (so : SearcherOptions)
    (mo : MatcherOptions) (root : FSList) (h : valid mo.pattern = false) :
    search_directory_with_rayon valid so mo root = ⟨[], [], RunResult.errRegex⟩
    ∧ consumerProcess (search_directory_with_rayon valid so mo root).msgs = [] := by
  have hm : MatcherOptions.to_matcher valid mo = Except.error "regex parse error" := by
    rw [MatcherOptions.to_matcher, h]
    simp
  constructor
  · rw [search_directory_with_rayon, hm]
  · rw [search_directory_with_rayon, hm]
    rfl

/-- C5 witness: with an engine rejecting every pattern, the entry point
on a populated tree returns the regex error with nothing scanned and
nothing delivered. -/
theorem c5_invalid_pattern_sync_witness :
    search_directory_with_rayon (fun _ => false) sampleSO sampleMO c7Tree
        = ⟨[], [], RunResult.errRegex⟩
    ∧ consumerProcess (search_directory_with_rayon (fun _ => false)
        sampleSO sampleMO c7Tree).msgs = [] :=
  c5_invalid_pattern_sync (fun _ => false) sampleSO sampleMO c7Tree rfl

/-- C6 counterexample: in the directory c6Tree the walk meets an
unlistable subdirectory; the error propagates out of the walk instead
of the path being skipped, and the remaining file b is never scanned. -/
theorem c6_counterexample :
    ¬ ((search_directory_inner [] c6Tree).result = RunResult.ok
       ∧ ["b"] ∈ (search_directory_inner [] c6Tree).scanned) := by
  decide

/-- C6 amended: only an entry the directory iterator itself fails to
yield is skipped, the walk continuing unchanged; a failed file-type
query or an unlistable subdirectory instead propagates an I/O error
that abandons the rest of the walk in the sequential schedule. -/
theorem c6_walk_error_handling (p : List String) (n : String) (rest : FSList) :
    search_directory_inner p (FSList.cons (FSEntry.badEntry n) rest)
        = search_directory_inner p rest
    ∧ search_directory_inner p (FSList.cons (FSEntry.badType n) rest)
        = ⟨[], [], RunResult.errRead⟩
    ∧ search_directory_inner p (FSList.cons (FSEntry.badDir n) rest)
        = ⟨[], [], RunResult.errRead⟩ :=
  ⟨rfl, rfl, rfl⟩

theorem sdi_cons (p : List String) (e : FSEntry) (rest : FSList) :
    search_directory_inner p (FSList.cons e rest) =
      (match (search_entry p e).result with
      | RunResult.ok =>
          ⟨(search_entry p e).msgs ++ (search_directory_inner p rest).msgs,
           (search_entry p e).scanned ++ (search_directory_inner p rest).scanned,
           (search_directory_inner p rest).result⟩
      | r => ⟨(search_entry p e).msgs, (search_entry p e).scanned, r⟩) := rfl

mutual

theorem entry_ok_scanned (p : List String) (e : FSEntry)
    (h : (search_entry p e).result = RunResult.ok) :
    (search_entry p e).scanned = entryFiles p e := by
  cases e with
  | file n sc => rfl
  | dir n es => exact list_ok_scanned (p ++ [n]) es h
  | other n => rfl
  | badEntry n => rfl
  | badType n => exact nomatch h
  | badDir n => exact nomatch h

theorem list_ok_scanned (p : List String) (es : FSList)
    (h : (search_directory_inner p es).result = RunResult.ok) :
    (search_directory_inner p es).scanned = listFiles p es := by
  cases es with
  | nil => rfl
  | cons e rest =>
      cases hr : (search_entry p e).result with
      | ok =>
          rw [sdi_cons, hr] at h
          dsimp only at h
          rw [sdi_cons, hr]
          dsimp only
          rw [entry_ok_scanned p e hr, list_ok_scanned p rest h]
          rfl
      | errRead => rw [sdi_cons, hr] at h; exact nomatch h
      | errRegex => rw [sdi_cons, hr] at h; exact nomatch h
      | panicked => rw [sdi_cons, hr] at h; exact nomatch h

end

mutual

theorem entry_scanned_initseg (p : List String) (e : FSEntry) :
    ∃ t, entryFiles p e = (search_entry p e).scanned ++ t := by
  cases e with
  | file n sc => exact ⟨[], by simp [entryFiles, search_entry]⟩
  | dir n es => exact list_scanned_initseg (p ++ [n]) es
  | other n => exact ⟨[], rfl⟩
  | badEntry n => exact ⟨[], rfl⟩
  | badType n => exact ⟨[], rfl⟩
  | badDir n => exact ⟨[], rfl⟩

theorem list_scanned_initseg (p : List String) (es : FSList) :
    ∃ t, listFiles p es = (search_directory_inner p es).scanned ++ t := by
  cases es with
  | nil => exact ⟨[], rfl⟩
  | cons e rest =>
      cases hr : (search_entry p e).result with
      | ok =>
          obtain ⟨t2, h2⟩ := list_scanned_initseg p rest
          refine ⟨t2, ?_⟩
          rw [sdi_cons, hr]
          dsimp only
          simp only [listFiles]
          rw [entry_ok_scanned p e hr, h2, List.append_assoc]
      | errRead =>
          obtain ⟨t1, h1⟩ := entry_scanned_initseg p e
          refine ⟨t1 ++ listFiles p rest, ?_⟩
          rw [sdi_cons, hr]
          dsimp only
          simp only [listFiles]
          rw [h1, List.append_assoc]
      | errRegex =>
          obtain ⟨t1, h1⟩ := entry_scanned_initseg p e
          refine ⟨t1 ++ listFiles p rest, ?_⟩
          rw [sdi_cons, hr]
          dsimp only
          simp only [listFiles]
          rw [h1, List.append_assoc]
      | panicked =>
          obtain ⟨t1, h1⟩ := entry_scanned_initseg p e
          refine ⟨t1 ++ listFiles p rest, ?_⟩
          rw [sdi_cons, hr]
          dsimp only
          simp only [listFiles]
          rw [h1, List.append_assoc]

end

mutual

theorem entry_errorFree_ok (p : List String) (e : FSEntry)
    (h : entryErrorFree e = true) :
    (search_entry p e).result = RunResult.ok := by
  cases e with
  | file n sc =>
      have hio : sc.ioError = false := by simpa [entryErrorFree] using h
      simp [search_entry, searchPath, hio]
  | dir n es =>
      exact list_errorFree_ok (p ++ [n]) es (by simpa [entryErrorFree] using h)
  | other n => rfl
  | badEntry n => rfl
  | badType n => exact nomatch h
  | badDir n => exact nomatch h

theorem list_errorFree_ok (p : List String) (es : FSList)
    (h : listErrorFree es = true) :
    (search_directory_inner p es).result = RunResult.ok := by
  cases es with
  | nil => rfl
  | cons e rest =>
      have hpair : entryErrorFree e = true ∧ listErrorFree rest = true := by
        simpa [listErrorFree, Bool.and_eq_true] using h
      have he := entry_errorFree_ok p e hpair.1
      rw [sdi_cons, he]
      dsimp only
      exact list_errorFree_ok p rest hpair.2

end

/-- C7 amended: the paths handed to search_path always form an initial
segment of the specification enumeration of the regular files reachable
under the root — so no file is ever scanned twice and no non-file,
non-directory entry is ever scanned —, on an error-free tree the walk
recurses into every subdirectory and scans every regular file exactly
once, and an entry whose type is neither file nor directory leaves the
traversal completely unchanged; when some entry errors, the files after
the first failure are missed rather than scanned. -/
theorem c7_scan_coverage (p : List String) (es : FSList) :
    (∃ t, listFiles p es = (search_directory_inner p es).scanned ++ t)
    ∧ (listErrorFree es = true →
        (search_directory_inner p es).scanned = listFiles p es)
    ∧ (∀ (n : String) (rest : FSList),
        search_directory_inner p (FSList.cons (FSEntry.other n) rest)
          = search_directory_inner p rest) :=
  ⟨list_scanned_initseg p es,
   fun h => list_ok_scanned p es (list_errorFree_ok p es h),
   fun _ _ => rfl⟩

/-- C7 witness: on the concrete error-free tree c7Tree the traversal
scans exactly the file inside the subdirectory and the file at the
root, in order, and skips the device entry. -/
theorem c7_scan_coverage_witness :
    (search_directory_inner [] c7Tree).scanned = listFiles [] c7Tree
    ∧ listFiles [] c7Tree = [["sub", "x"], ["y"]] :=
  ⟨(c7_scan_coverage [] c7Tree).2.1 (by decide), by decide⟩

/-- C7 counterexample: in c7BadTree the file b carries no I/O error of
its own, yet it is scanned zero times, because the failing file-type
query of a sibling aborts the walk first. -/
theorem c7_counterexample :
    entryErrorFree (FSEntry.file "b" ⟨[], false⟩) = true
    ∧ ¬ (((search_directory_inner [] c7BadTree).scanned.count ["b"]) = 1) := by
  decide

theorem arrival_keeps_producer_order (ws : List (List ChannelMsg))
    (q : List ChannelMsg) (h : IsArrival ws q) :
    ∀ (j : Nat) (w : List ChannelMsg), ws[j]? = some w → List.Sublist w q := by
  induction h with
  | empty ws hw =>
      intro j w hj
      have hnil : w = [] := hw w (List.getElem?_mem hj)
      subst hnil
      exact List.nil_sublist []
  | step ws i m rest q hi htail ih =>
      intro j w hj
      by_cases hij : i = j
      · subst hij
        rw [hi] at hj
        cases hj
        have hlen : i < ws.length := (List.getElem?_eq_some.mp hi).1
        have hrest : (ws.set i rest)[i]? = some rest :=
          List.getElem?_set_eq_of_lt rest (by simpa using hlen)
        exact List.Sublist.cons₂ m (ih i rest hrest)
      · have hj2 : (ws.set i rest)[j]? = some w := by
          rw [List.getElem?_set_ne hij]
          exact hj
        exact List.Sublist.cons m (ih j w hj2)

/-- C4: each file-scan task produces its channel messages in order, and
the queue is some arrival interleaving of those producers; the consumer
executes the queued closures sequentially, so every callback outcome
lies in the one totally ordered delivery sequence of the consumer —
never entered concurrently — and each task's deliveries appear there in
its production order. -/
theorem c4_serialized_delivery (files : List FileScan) (q : List ChannelMsg)
    (h : IsArrival (files.map (fun f => (searchPath f).1)) q)
    (j : Nat) (f : FileScan) (hj : files[j]? = some f) :
    List.Sublist (consumerProcess (searchPath f).1) (consumerProcess q) := by
  have hm : (files.map (fun g => (searchPath g).1))[j]? = some (searchPath f).1 := by
    rw [List.getElem?_map, hj]
    rfl
  exact List.Sublist.map consumerStep (arrival_keeps_producer_order _ q h j _ hm)

/-- C4 witness: two one-match files whose messages arrive interleaved
in reverse producer order still see the second file's delivery inside
the single consumer sequence. -/
theorem c4_serialized_delivery_witness :
    List.Sublist (consumerProcess (searchPath fsB).1)
      (consumerProcess [msgB, msgA]) := by
  refine c4_serialized_delivery [fsA, fsB] [msgB, msgA] ?_ 1 fsB (by decide)
  refine IsArrival.step _ 1 msgB [] [msgA] (by decide) ?_
  refine IsArrival.step _ 0 msgA [] [] (by decide) ?_
  exact IsArrival.empty _ (by decide)

theorem exbind_ok {ε α β : Type} {x : Except ε α} {f : α → Except ε β} {b : β}
    (h : x >>= f = Except.ok b) : ∃ a, x = Except.ok a ∧ f a = Except.ok b := by
  cases x with
  | error e => simp [Bind.bind, Except.bind] at h
  | ok a => exact ⟨a, rfl, by simpa [Bind.bind, Except.bind] using h⟩

/-- C8 counterexample: the caller's bundle carries lineTerminatorByte
zero, yet the extraction succeeds with a searcher whose line terminator
is the builder default 10, not the caller-supplied byte. -/
theorem c8_counterexample :
    sampleObj "lineTerminatorByte" = JSValue.num (JSNum.num 0 0)
    ∧ (extractOptions sampleObj).map
        (fun pr => (SearcherOptions.to_searcher pr.1).line_term) = Except.ok 10
    ∧ (10 : Nat) ≠ 0 := by
  decide

/-- C8 amended: the entry point never reads a line terminator from the
options bundle: whatever the caller supplies, the searcher options are
built with no line terminator and the searcher keeps the builder
default byte 10; the remaining searcher fields are populated from the
bundle. -/
theorem c8_line_terminator_ignored (obj : JSObject) (so : SearcherOptions)
    (mo : MatcherOptions) (h : extractOptions obj = Except.ok (so, mo)) :
    so.line_terminator = none
    ∧ (SearcherOptions.to_searcher so).line_term = 10 := by
  unfold extractOptions at h
  obtain ⟨after, -, h⟩ := exbind_ok h
  obtain ⟨before, -, h⟩ := exbind_ok h
  obtain ⟨ml, -, h⟩ := exbind_ok h
  obtain ⟨inv, -, h⟩ := exbind_ok h
  obtain ⟨iln, -, h⟩ := exbind_ok h
  obtain ⟨pt, -, h⟩ := exbind_ok h
  obtain ⟨pat, -, h⟩ := exbind_ok h
  obtain ⟨ci, -, h⟩ := exbind_ok h
  obtain ⟨sca, -, h⟩ := exbind_ok h
  obtain ⟨dm, -, h⟩ := exbind_ok h
  obtain ⟨gs, -, h⟩ := exbind_ok h
  obtain ⟨iw, -, h⟩ := exbind_ok h
  obtain ⟨uni, -, h⟩ := exbind_ok h
  obtain ⟨oct, -, h⟩ := exbind_ok h
  obtain ⟨crl, -, h⟩ := exbind_ok h
  obtain ⟨wb, -, h⟩ := exbind_ok h
  simp only [pure, Except.pure, Except.ok.injEq, Prod.mk.injEq] at h
  obtain ⟨hso, hmo⟩ := h
  subst hso
  subst hmo
  exact ⟨rfl, rfl⟩

/-- C8 witness: the options built from the concrete bundle sampleObj
carry no line terminator and yield the default searcher terminator. -/
theorem c8_line_terminator_ignored_witness :
    sampleSO.line_terminator = none
    ∧ (SearcherOptions.to_searcher sampleSO).line_term = 10 :=
  c8_line_terminator_ignored sampleObj sampleSO sampleMO (by decide)

/-- C9: the matcher configuration built by the entry point copies its
multi_line flag directly from the multiline_search of the searcher
configuration built from the same option set, so the two can never
disagree. -/
theorem c9_multiline_agree (obj : JSObject) (so : SearcherOptions)
    (mo : MatcherOptions) (h : extractOptions obj = Except.ok (so, mo)) :
    mo.multi_line = so.multiline_search := by
  unfold extractOptions at h
  obtain ⟨after, -, h⟩ := exbind_ok h
  obtain ⟨before, -, h⟩ := exbind_ok h
  obtain ⟨ml, -, h⟩ := exbind_ok h
  obtain ⟨inv, -, h⟩ := exbind_ok h
  obtain ⟨iln, -, h⟩ := exbind_ok h
  obtain ⟨pt, -, h⟩ := exbind_ok h
  obtain ⟨pat, -, h⟩ := exbind_ok h
  obtain ⟨ci, -, h⟩ := exbind_ok h
  obtain ⟨sca, -, h⟩ := exbind_ok h
  obtain ⟨dm, -, h⟩ := exbind_ok h
  obtain ⟨gs, -, h⟩ := exbind_ok h
  obtain ⟨iw, -, h⟩ := exbind_ok h
  obtain ⟨uni, -, h⟩ := exbind_ok h
  obtain ⟨oct, -, h⟩ := exbind_ok h
  obtain ⟨crl, -, h⟩ := exbind_ok h
  obtain ⟨wb, -, h⟩ := exbind_ok h
  simp only [pure, Except.pure, Except.ok.injEq, Prod.mk.injEq] at h
  obtain ⟨hso, hmo⟩ := h
  subst hso
  subst hmo
  rfl

/-- C9 witness: on the concrete bundle sampleObj the two constructed
configurations agree on the multiline flag. -/
theorem c9_multiline_agree_witness :
    sampleMO.multi_line = sampleSO.multiline_search :=
  c9_multiline_agree sampleObj sampleSO sampleMO (by decide)

theorem floor_val_eq_intDiv (n : Int) (d : Nat) :
    ⌊JSNum.val n d⌋ = n / ((d : Int) + 1) := by
  have h := Rat.floor_intCast_div_natCast n (d + 1)
  push_cast at h
  rw [JSNum.val]
  exact h

theorem val_neg_iff (n : Int) (d : Nat) : JSNum.val n d < 0 ↔ n < 0 := by
  rw [JSNum.val]
  rw [div_neg_iff]
  constructor
  · rintro (⟨h1, h2⟩ | ⟨h1, h2⟩)
    · exfalso
      have hd : (0 : ℚ) < (d : ℚ) + 1 := by positivity
      linarith
    · exact_mod_cast h1
  · intro hn
    right
    constructor
    · exact_mod_cast hn
    · positivity

/-- C10: over JavaScript numbers the option extraction is total — any
number downcasts and converts, so context sizes always exist and are
nonnegative — and the conversion is the saturating truncating cast: NaN
and negative infinity go to zero, positive infinity saturates at the
usize maximum, any negative value goes to zero, a nonnegative in-range
value is truncated to its integer part, and an above-range value
saturates at the usize maximum. -/
theorem c10_cast_total (obj : JSObject) (key : String) (j : JSNum)
    (h : obj key = JSValue.num j) :
    get_int_from_js_object obj key = Except.ok (f64AsUsize j)
    ∧ f64AsUsize JSNum.nan = 0
    ∧ f64AsUsize JSNum.negInf = 0
    ∧ f64AsUsize JSNum.posInf = USIZE_MAX
    ∧ (∀ (n : Int) (d : Nat), JSNum.val n d < 0 → f64AsUsize (JSNum.num n d) = 0)
    ∧ (∀ (n : Int) (d : Nat), 0 ≤ JSNum.val n d → JSNum.val n d ≤ (USIZE_MAX : ℚ) →
        ((f64AsUsize (JSNum.num n d) : ℚ) ≤ JSNum.val n d
          ∧ JSNum.val n d < (f64AsUsize (JSNum.num n d) : ℚ) + 1))
    ∧ (∀ (n : Int) (d : Nat), (USIZE_MAX : ℚ) ≤ JSNum.val n d →
        f64AsUsize (JSNum.num n d) = USIZE_MAX) := by
  refine ⟨by rw [get_int_from_js_object, h], rfl, rfl, rfl, ?_, ?_, ?_⟩
  · intro n d hv
    have hn : n < 0 := (val_neg_iff n d).mp hv
    simp [f64AsUsize, hn]
  · intro n d hv0 hvM
    have hn : ¬ n < 0 := by
      intro hn
      exact absurd hv0 (not_le.mpr ((val_neg_iff n d).mpr hn))
    have hfl : (0 : Int) ≤ ⌊JSNum.val n d⌋ := Int.floor_nonneg.mpr hv0
    have hflM : ⌊JSNum.val n d⌋ ≤ (USIZE_MAX : Int) := by
      have hmono := Int.floor_mono hvM
      rwa [Int.floor_natCast] at hmono
    have hdiv : n / ((d : Int) + 1) = ⌊JSNum.val n d⌋ := (floor_val_eq_intDiv n d).symm
    have hred : f64AsUsize (JSNum.num n d) = Int.toNat ⌊JSNum.val n d⌋ := by
      simp only [f64AsUsize, hn, if_false]
      have hc : ((d + 1 : Nat) : Int) = (d : Int) + 1 := by push_cast; ring
      rw [hc, hdiv]
      exact min_eq_left (by omega)
    rw [hred]
    have hcast : ((Int.toNat ⌊JSNum.val n d⌋ : Nat) : ℚ)
        = ((⌊JSNum.val n d⌋ : Int) : ℚ) := by
      rw [← Int.cast_natCast, Int.toNat_of_nonneg hfl]
    constructor
    · rw [hcast]
      exact Int.floor_le _
    · rw [hcast]
      have hlt := Int.lt_floor_add_one (JSNum.val n d)
      push_cast at hlt ⊢
      linarith
  · intro n d hvM
    have hv0 : (0 : ℚ) ≤ JSNum.val n d := le_trans (by positivity) hvM
    have hn : ¬ n < 0 := by
      intro hn
      exact absurd hv0 (not_le.mpr ((val_neg_iff n d).mpr hn))
    have hflM : (USIZE_MAX : Int) ≤ ⌊JSNum.val n d⌋ := by
      rw [Int.le_floor]
      push_cast
      exact hvM
    have hdiv : n / ((d : Int) + 1) = ⌊JSNum.val n d⌋ := (floor_val_eq_intDiv n d).symm
    simp only [f64AsUsize, hn, if_false]
    have hc : ((d + 1 : Nat) : Int) = (d : Int) + 1 := by push_cast; ring
    rw [hc, hdiv]
    exact min_eq_right (by omega)

/-- C10 witness: the concrete bundle holding the number minus seven
halves extracts successfully and the cast takes it to zero. -/
theorem c10_cast_total_witness :
    get_int_from_js_object negNumObj "afterContext"
        = Except.ok (f64AsUsize (JSNum.num (-7) 1))
    ∧ f64AsUsize (JSNum.num (-7) 1) = 0 :=
  ⟨(c10_cast_total negNumObj "afterContext" (JSNum.num (-7) 1) (by decide)).1,
   by decide⟩

end Ripgrepjs
